import Mathlib

/-!
# Verification of the credo-ts protocol coordination engine

Shallow embedding of the V2 credential protocol
(`packages/didcomm/src/modules/credentials/protocol/v2/V2DidCommCredentialProtocol.ts`),
the V2 message pickup protocol
(`packages/didcomm/src/modules/message-pickup/protocol/v2/V2MessagePickupProtocol.ts`,
`.../handlers/V2StatusHandler.ts`) and the queue repository implementation
(`samples/mediator-cluster/PostgreSQLMessageRepository.ts`), together with
theorems settling the specification claims about them.

Conventions: asynchronous repository access becomes explicit state passing
(the queue is a list of messages, the exchange-record store a list of
records); thrown errors become `Except`; TypeScript `undefined` becomes
`Option`.
-/

namespace Credo

/-! ## Message pickup: queued messages and the queue repository

A queued message as stored by the pickup queue repository
(`uuid`, `connection_id`, `payload` columns of the MESSAGES table). -/

structure QueuedMessage where
  id : String
  connectionId : String
  encryptedMessage : String
deriving DecidableEq

/-- `PostgreSQLMessageRepository.getAvailableMessageCount`:
`SELECT COUNT(*) FROM MESSAGES WHERE connection_id = ...`. -/
def getAvailableMessageCount (queue : List QueuedMessage) (connectionId : String) : Nat :=
  (queue.filter (fun m => decide (m.connectionId = connectionId))).length

/-- `PostgreSQLMessageRepository.removeMessages`:
`DELETE FROM MESSAGES WHERE uuid IN (ids)` (deletes by id regardless of
connection). -/
def removeMessages (queue : List QueuedMessage) (messageIds : List String) : List QueuedMessage :=
  queue.filter (fun m => !(messageIds.any (fun i => decide (i = m.id))))

/-- `PostgreSQLMessageRepository.asyncTakeFromQueue`. Selects up to `limit`
messages for the connection in timestamp order (`limit` absent, or `0`,
which is falsy in JavaScript, means ALL), then — unless `keepMessages`
is true — deletes the selected messages via `removeMessages`. Returns
the selected messages together with the queue state afterwards. -/
def takeFromQueue (queue : List QueuedMessage) (connectionId : String)
    (limit : Option Nat) (keepMessages : Bool) : List QueuedMessage × List QueuedMessage :=
  let forConnection := queue.filter (fun m => decide (m.connectionId = connectionId))
  let selected := match limit with
    | some n => if n = 0 then forConnection else forConnection.take n
    | none => forConnection
  let queueAfter := if keepMessages then queue
    else removeMessages queue (selected.map (fun m => m.id))
  (selected, queueAfter)

/-! ## Message pickup: V2 protocol engine -/

/-- Payload of a `V2StatusMessage`. -/
structure V2StatusMessageData where
  threadId : String
  recipientKey : Option String
  messageCount : Nat
deriving DecidableEq

/-- Payload of a `V2DeliveryRequestMessage`. -/
structure V2DeliveryRequestMessageData where
  limit : Nat
  recipientKey : Option String
deriving DecidableEq

/-- A `MessagePickupCompletedEvent` payload: the connection and the thread id
of the status message that reported zero messages. -/
structure MessagePickupCompletedEvent where
  connectionId : String
  threadId : String
deriving DecidableEq

/-- Outbound message produced by `processDeliveryRequest`: either a
`V2MessageDeliveryMessage` carrying one attachment per taken queued message,
or a zero-count `V2StatusMessage`. -/
inductive DeliveryRequestOutbound
  | delivery (threadId : String) (recipientKey : Option String) (attachmentIds : List String)
  | status (threadId : String) (recipientKey : Option String) (messageCount : Nat)
deriving DecidableEq

/-- `V2MessagePickupProtocol.processDeliveryRequest`. Takes up to
`limit` messages from the queue (the call does not pass `keepMessages`,
so the repository receives `keepMessages = undefined`, i.e. `false`) and
answers with a delivery message when any were taken, a zero-count status
otherwise. Returns the queue state after the call and the outbound message. -/
def processDeliveryRequest (queue : List QueuedMessage) (connectionId : String)
    (threadId : String) (recipientKey : Option String) (limit : Nat) :
    List QueuedMessage × DeliveryRequestOutbound :=
  let (messages, queueAfter) := takeFromQueue queue connectionId (some limit) false
  let outbound := if messages.length > 0
    then .delivery threadId recipientKey (messages.map (fun m => m.id))
    else .status threadId recipientKey 0
  (queueAfter, outbound)

/-- Result of `V2MessagePickupProtocol.processMessagesReceived`: the queue
afterwards, the argument of the `removeMessages` repository call when one was
made, and the returned status message. -/
structure MessagesReceivedResult where
  queue : List QueuedMessage
  removeCall : Option (List String)
  status : V2StatusMessageData
deriving DecidableEq

/-- `V2MessagePickupProtocol.processMessagesReceived`. Calls
`removeMessages` with exactly `messageIdList` when that list is non-empty
(`if (message.messageIdList.length)`), then answers with a status message
reporting the available message count for the connection. -/
def processMessagesReceived (queue : List QueuedMessage) (connectionId : String)
    (threadId : String) (messageIdList : List String) : MessagesReceivedResult :=
  let (queueAfter, removeCall) :=
    if messageIdList.length ≠ 0
      then (removeMessages queue messageIdList, some messageIdList)
      else (queue, none)
  ⟨queueAfter, removeCall,
    ⟨threadId, none, getAvailableMessageCount queueAfter connectionId⟩⟩

/-- `V2MessagePickupProtocol.processStatus`. When the status reports zero
messages, emits a `MessagePickupCompletedEvent` and returns `null`;
otherwise returns a delivery request whose limit is the reported count
capped at the module's `maximumBatchSize`
(`messageCount < maximumMessagePickup ? messageCount : maximumMessagePickup`).
Returns the emitted events together with the optional delivery request. -/
def processStatus (maximumBatchSize : Nat) (connectionId : String)
    (statusMessage : V2StatusMessageData) :
    List MessagePickupCompletedEvent × Option V2DeliveryRequestMessageData :=
  if statusMessage.messageCount = 0 then
    ([⟨connectionId, statusMessage.threadId⟩], none)
  else
    let limit := if statusMessage.messageCount < maximumBatchSize
      then statusMessage.messageCount else maximumBatchSize
    ([], some ⟨limit, statusMessage.recipientKey⟩)

/-- `V2StatusHandler.handle`: forwards to `processStatus` and wraps the
delivery request in an outbound message context only when one was returned
(`if (deliveryRequestMessage) ...`); otherwise produces no outbound message. -/
def v2StatusHandlerHandle (maximumBatchSize : Nat) (connectionId : String)
    (statusMessage : V2StatusMessageData) : Option V2DeliveryRequestMessageData :=
  match (processStatus maximumBatchSize connectionId statusMessage).2 with
  | some deliveryRequestMessage => some deliveryRequestMessage
  | none => none

/-- An attachment: an identifier together with an opaque payload. -/
structure Attachment where
  id : String
  data : String
deriving DecidableEq

/-- The problem report thrown by `processDelivery` when the delivery message
carries no appended attachments (`RoutingProblemReportReason.ErrorProcessingAttachments`). -/
inductive PickupProblemReport
  | errorProcessingAttachments
deriving DecidableEq

/-- `V2MessagePickupProtocol.processDelivery`. Throws a problem report when
the message has no appended-attachments field at all
(`if (!appendedAttachments) throw ...`; an empty list is truthy in
JavaScript and is processed normally), otherwise emits one received event
per attachment and answers with a `V2MessagesReceivedMessage` listing the
attachment ids. -/
def processDelivery (appendedAttachments : Option (List Attachment)) :
    Except PickupProblemReport (List String) :=
  match appendedAttachments with
  | none => .error .errorProcessingAttachments
  | some attachments => .ok (attachments.map (fun a => a.id))

/-! ## Credential protocol: data model -/

/-- `DidCommCredentialState`. -/
inductive DidCommCredentialState
  | ProposalSent
  | ProposalReceived
  | OfferSent
  | OfferReceived
  | RequestSent
  | RequestReceived
  | CredentialIssued
  | CredentialReceived
  | Done
  | Abandoned
deriving DecidableEq

/-- `DidCommCredentialRole`. -/
inductive DidCommCredentialRole
  | Holder
  | Issuer
deriving DecidableEq

/-- `DidCommAutoAcceptCredential`. -/
inductive DidCommAutoAcceptCredential
  | Always
  | ContentApproved
  | Never
deriving DecidableEq

/-- Errors thrown by the credential protocol (all `CredoError` in the source,
distinguished here by the failure they report). -/
inductive CredentialProtocolError
  | invalidProtocolVersion
  | invalidState
  | negotiationNotSupported
  | noSupportedFormats
  | messageNotFound
  | connectionNotValid
deriving DecidableEq

/-- `DidCommCredentialExchangeRecord` (the fields the protocol engine reads
and writes). -/
structure CredentialExchangeRecord where
  id : Nat
  threadId : String
  parentThreadId : Option String
  connectionId : Option String
  role : DidCommCredentialRole
  state : DidCommCredentialState
  protocolVersion : String
  autoAcceptCredential : Option DidCommAutoAcceptCredential
deriving DecidableEq

/-- `DidCommCredentialFormatSpec`: the per-attachment format descriptor a
credential message carries (`attachmentId`, format wire string). -/
structure CredentialFormatSpec where
  attachmentId : String
  format : String
deriving DecidableEq

/-- A single attribute of a credential preview (name and value). -/
structure PreviewAttribute where
  name : String
  value : String
deriving DecidableEq

/-- A credential preview: the human-readable attribute list attached to
proposal and offer messages. -/
structure CredentialPreview where
  attributes : List PreviewAttribute
deriving DecidableEq

/-- `V2ProposeCredentialMessage`. -/
structure ProposeCredentialMessage where
  threadId : String
  parentThreadId : Option String
  formats : List CredentialFormatSpec
  proposalAttachments : List Attachment
  credentialPreview : Option CredentialPreview
deriving DecidableEq

/-- `V2OfferCredentialMessage`. -/
structure OfferCredentialMessage where
  threadId : String
  parentThreadId : Option String
  formats : List CredentialFormatSpec
  offerAttachments : List Attachment
  credentialPreview : Option CredentialPreview
deriving DecidableEq

/-- `V2RequestCredentialMessage`. -/
structure RequestCredentialMessage where
  threadId : String
  parentThreadId : Option String
  formats : List CredentialFormatSpec
  requestAttachments : List Attachment
deriving DecidableEq

/-- A registered `CredentialFormatService`. The engine treats the service as
an opaque strategy: here `serviceId` models the object identity used by the
`Set` deduplication, `formatKey` the construction-time key, and
`supportedFormats` the wire format strings accepted by `supportsFormat`. -/
structure CredentialFormatService where
  serviceId : Nat
  formatKey : String
  supportedFormats : List String
deriving DecidableEq

/-- The `supportsFormat` capability of a format service (implemented by each
format outside the engine): pattern match against the wire format string. -/
def supportsFormat (service : CredentialFormatService) (format : String) : Bool :=
  service.supportedFormats.any (fun f => decide (f = format))

/-! ## Credential protocol: format resolution -/

/-- `getFormatServiceForFormat`: first registered service whose
`supportsFormat` accepts the wire format string. -/
def getFormatServiceForFormat (services : List CredentialFormatService)
    (format : String) : Option CredentialFormatService :=
  services.find? (fun s => supportsFormat s format)

/-- `getFormatServiceForFormatKey`: first registered service with the given
declared format key. -/
def getFormatServiceForFormatKey (services : List CredentialFormatService)
    (formatKey : String) : Option CredentialFormatService :=
  services.find? (fun s => decide (s.formatKey = formatKey))

/-- Append a service to the accumulator unless one with the same identity is
already present (models insertion into a JavaScript `Set`, which dedups by
instance identity and preserves insertion order). -/
def addServiceToSet (acc : List CredentialFormatService)
    (service : CredentialFormatService) : List CredentialFormatService :=
  if acc.any (fun t => decide (t.serviceId = service.serviceId)) then acc
  else acc ++ [service]

/-- `getFormatServicesFromMessage`: the service resolved from each format
spec of an inbound message, deduplicated by identity. -/
def getFormatServicesFromMessage (services : List CredentialFormatService)
    (messageFormats : List CredentialFormatSpec) : List CredentialFormatService :=
  messageFormats.foldl
    (fun acc spec =>
      match getFormatServiceForFormat services spec.format with
      | some service => addServiceToSet acc service
      | none => acc)
    []

/-- `getFormatServices`: the service resolved from each key of the
caller-supplied `credentialFormats` payload, deduplicated by identity. -/
def getFormatServices (services : List CredentialFormatService)
    (formatKeys : List String) : List CredentialFormatService :=
  formatKeys.foldl
    (fun acc key =>
      match getFormatServiceForFormatKey services key with
      | some service => addServiceToSet acc service
      | none => acc)
    []

/-! ## Credential protocol: record assertions and lookup -/

/-- Modelled from the spec: `protocolVersion` is "asserted on every
transition to reject cross-version message injection"
(`DidCommCredentialExchangeRecord.assertProtocolVersion`, whose body is not
part of the studied sources). -/
def assertProtocolVersion (record : CredentialExchangeRecord) (version : String) :
    Except CredentialProtocolError Unit :=
  if record.protocolVersion = version then .ok () else .error .invalidProtocolVersion

/-- Modelled from the spec: the current state "is asserted to be the expected
predecessor (fails with InvalidStateTransition otherwise)"
(`DidCommCredentialExchangeRecord.assertState`, whose body is not part of the
studied sources). -/
def assertState (record : CredentialExchangeRecord) (expected : DidCommCredentialState) :
    Except CredentialProtocolError Unit :=
  if record.state = expected then .ok () else .error .invalidState

/-- Modelled from the spec: the exchange record store exposes
`findByProperties(threadId, role, connectionId?) -> record?`; when the
connection filter is absent the lookup matches on thread id and role alone. -/
def findByProperties (records : List CredentialExchangeRecord) (threadId : String)
    (role : DidCommCredentialRole) (connectionFilter : Option (Option String)) :
    Option CredentialExchangeRecord :=
  records.find? (fun r =>
    decide (r.threadId = threadId) && decide (r.role = role) &&
      match connectionFilter with
      | none => true
      | some c => decide (r.connectionId = c))

/-! ## Credential protocol: accept operations

Each `accept*` returns the updated exchange record together with the format
services handed to the format coordinator to build the outbound message
(the coordinator and its format capabilities are external to the engine). -/

/-- Result of a successful `accept*` / `negotiate*` call. -/
structure AcceptResult where
  record : CredentialExchangeRecord
  usedFormatServices : List CredentialFormatService
deriving DecidableEq

/-- `V2DidCommCredentialProtocol.acceptRequest`. Asserts protocol version and
`RequestReceived` state; resolves format services from the caller-supplied
`credentialFormats` keys (`credentialFormats ?? {}`); when none resolve,
falls back to the format services of the stored inbound request message
(`getAgentMessage` with `messageClass: V2RequestCredentialMessage`,
`role: Receiver` — it throws when the message is absent); errors when the
resulting set is still empty; finally advances the record to
`CredentialIssued`. -/
def acceptRequest (services : List CredentialFormatService)
    (credentialFormats : Option (List String))
    (autoAcceptCredential : Option DidCommAutoAcceptCredential)
    (record : CredentialExchangeRecord)
    (storedRequestMessage : Option RequestCredentialMessage) :
    Except CredentialProtocolError AcceptResult :=
  match assertProtocolVersion record "v2" with
  | .error e => .error e
  | .ok _ =>
  match assertState record .RequestReceived with
  | .error e => .error e
  | .ok _ =>
    let formatServices := getFormatServices services (credentialFormats.getD [])
    let resolved : Except CredentialProtocolError (List CredentialFormatService) :=
      if formatServices.isEmpty then
        match storedRequestMessage with
        | none => .error .messageNotFound
        | some requestMessage =>
            .ok (getFormatServicesFromMessage services requestMessage.formats)
      else .ok formatServices
    match resolved with
    | .error e => .error e
    | .ok formatServices =>
      if formatServices.isEmpty then .error .noSupportedFormats
      else .ok ⟨{ record with
          autoAcceptCredential := autoAcceptCredential <|> record.autoAcceptCredential,
          state := .CredentialIssued }, formatServices⟩

/-- `V2DidCommCredentialProtocol.acceptOffer`. Same shape as `acceptRequest`:
asserts `OfferReceived`, falls back to the format services of the stored
inbound offer message (`role: Receiver`), advances to `RequestSent`. -/
def acceptOffer (services : List CredentialFormatService)
    (credentialFormats : Option (List String))
    (autoAcceptCredential : Option DidCommAutoAcceptCredential)
    (record : CredentialExchangeRecord)
    (storedOfferMessage : Option OfferCredentialMessage) :
    Except CredentialProtocolError AcceptResult :=
  match assertProtocolVersion record "v2" with
  | .error e => .error e
  | .ok _ =>
  match assertState record .OfferReceived with
  | .error e => .error e
  | .ok _ =>
    let formatServices := getFormatServices services (credentialFormats.getD [])
    let resolved : Except CredentialProtocolError (List CredentialFormatService) :=
      if formatServices.isEmpty then
        match storedOfferMessage with
        | none => .error .messageNotFound
        | some offerMessage =>
            .ok (getFormatServicesFromMessage services offerMessage.formats)
      else .ok formatServices
    match resolved with
    | .error e => .error e
    | .ok formatServices =>
      if formatServices.isEmpty then .error .noSupportedFormats
      else .ok ⟨{ record with
          autoAcceptCredential := autoAcceptCredential <|> record.autoAcceptCredential,
          state := .RequestSent }, formatServices⟩

/-- `V2DidCommCredentialProtocol.acceptProposal`. Same shape: asserts
`ProposalReceived`, falls back to the format services of the stored inbound
proposal message (`role: Receiver`), advances to `OfferSent`. -/
def acceptProposal (services : List CredentialFormatService)
    (credentialFormats : Option (List String))
    (autoAcceptCredential : Option DidCommAutoAcceptCredential)
    (record : CredentialExchangeRecord)
    (storedProposalMessage : Option ProposeCredentialMessage) :
    Except CredentialProtocolError AcceptResult :=
  match assertProtocolVersion record "v2" with
  | .error e => .error e
  | .ok _ =>
  match assertState record .ProposalReceived with
  | .error e => .error e
  | .ok _ =>
    let formatServices := getFormatServices services (credentialFormats.getD [])
    let resolved : Except CredentialProtocolError (List CredentialFormatService) :=
      if formatServices.isEmpty then
        match storedProposalMessage with
        | none => .error .messageNotFound
        | some proposalMessage =>
            .ok (getFormatServicesFromMessage services proposalMessage.formats)
      else .ok formatServices
    match resolved with
    | .error e => .error e
    | .ok formatServices =>
      if formatServices.isEmpty then .error .noSupportedFormats
      else .ok ⟨{ record with
          autoAcceptCredential := autoAcceptCredential <|> record.autoAcceptCredential,
          state := .OfferSent }, formatServices⟩

/-! ## Credential protocol: negotiate operations -/

/-- `V2DidCommCredentialProtocol.negotiateProposal`. Asserts protocol version
and `ProposalReceived` state, then rejects records without a `connectionId`
(connection-less issuance does not support negotiation), resolves format
services from the required `credentialFormats`, and advances to `OfferSent`. -/
def negotiateProposal (services : List CredentialFormatService)
    (credentialFormats : List String)
    (autoAcceptCredential : Option DidCommAutoAcceptCredential)
    (record : CredentialExchangeRecord) :
    Except CredentialProtocolError AcceptResult :=
  match assertProtocolVersion record "v2" with
  | .error e => .error e
  | .ok _ =>
  match assertState record .ProposalReceived with
  | .error e => .error e
  | .ok _ =>
    match record.connectionId with
    | none => .error .negotiationNotSupported
    | some _ =>
      let formatServices := getFormatServices services credentialFormats
      if formatServices.isEmpty then .error .noSupportedFormats
      else .ok ⟨{ record with
          autoAcceptCredential := autoAcceptCredential <|> record.autoAcceptCredential,
          state := .OfferSent }, formatServices⟩

/-- `V2DidCommCredentialProtocol.negotiateOffer`. Asserts protocol version
and `OfferReceived` state, then rejects records without a `connectionId`,
resolves format services from the required `credentialFormats`, and advances
to `ProposalSent`. -/
def negotiateOffer (services : List CredentialFormatService)
    (credentialFormats : List String)
    (autoAcceptCredential : Option DidCommAutoAcceptCredential)
    (record : CredentialExchangeRecord) :
    Except CredentialProtocolError AcceptResult :=
  match assertProtocolVersion record "v2" with
  | .error e => .error e
  | .ok _ =>
  match assertState record .OfferReceived with
  | .error e => .error e
  | .ok _ =>
    match record.connectionId with
    | none => .error .negotiationNotSupported
    | some _ =>
      let formatServices := getFormatServices services credentialFormats
      if formatServices.isEmpty then .error .noSupportedFormats
      else .ok ⟨{ record with
          autoAcceptCredential := autoAcceptCredential <|> record.autoAcceptCredential,
          state := .ProposalSent }, formatServices⟩

/-! ## Credential protocol: inbound `process*` operations

Each `process*` takes the exchange-record store (a list of records), the id
of the inbound connection, a boolean standing for the external connection
service assertions (`assertConnectionOrOutOfBandExchange` and
`matchIncomingMessageToRequestMessageInOutOfBandExchange`, implemented
outside the engine), a fresh id for a possibly created record, and the
inbound message. It returns the store after the call together with the
record that was updated or created. -/

/-- Replace the record with the same id in the store (models
`Repository.update`). -/
def updateRecordInStore (records : List CredentialExchangeRecord)
    (updated : CredentialExchangeRecord) : List CredentialExchangeRecord :=
  records.map (fun r => if r.id = updated.id then updated else r)

/-- `V2DidCommCredentialProtocol.processOffer`. Looks up an existing record by
`(threadId, role = Holder, connectionId)`; resolves format services from the
message (error when none); when a record exists asserts protocol version and
`ProposalSent` state and moves it to `OfferReceived`; otherwise creates a new
record in `OfferReceived` with role `Holder`. -/
def processOffer (services : List CredentialFormatService)
    (records : List CredentialExchangeRecord) (connection : Option String)
    (connectionChecksPass : Bool) (freshId : Nat)
    (offerMessage : OfferCredentialMessage) :
    Except CredentialProtocolError (List CredentialExchangeRecord × CredentialExchangeRecord) :=
  let existing := findByProperties records offerMessage.threadId .Holder (some connection)
  let formatServices := getFormatServicesFromMessage services offerMessage.formats
  if formatServices.isEmpty then .error .noSupportedFormats
  else
    match existing with
    | some record =>
      match assertProtocolVersion record "v2" with
      | .error e => .error e
      | .ok _ =>
      match assertState record .ProposalSent with
      | .error e => .error e
      | .ok _ =>
        if !connectionChecksPass then .error .connectionNotValid
        else
          let updated := { record with state := .OfferReceived }
          .ok (updateRecordInStore records updated, updated)
    | none =>
      if !connectionChecksPass then .error .connectionNotValid
      else
        let created : CredentialExchangeRecord :=
          ⟨freshId, offerMessage.threadId, offerMessage.parentThreadId, connection,
            .Holder, .OfferReceived, "v2", none⟩
        .ok (records ++ [created], created)

/-- `V2DidCommCredentialProtocol.processProposal`. Looks up an existing record
by `(threadId, role = Issuer)` (no connection filter); resolves format
services from the message; when a record exists asserts protocol version and
`OfferSent` state, binds the connection id when the record was
connection-less, and moves it to `ProposalReceived`; otherwise creates a new
record in `ProposalReceived` with role `Issuer`. -/
def processProposal (services : List CredentialFormatService)
    (records : List CredentialExchangeRecord) (connection : Option String)
    (connectionChecksPass : Bool) (freshId : Nat)
    (proposalMessage : ProposeCredentialMessage) :
    Except CredentialProtocolError (List CredentialExchangeRecord × CredentialExchangeRecord) :=
  let existing := findByProperties records proposalMessage.threadId .Issuer none
  let formatServices := getFormatServicesFromMessage services proposalMessage.formats
  if formatServices.isEmpty then .error .noSupportedFormats
  else
    match existing with
    | some record =>
      match assertProtocolVersion record "v2" with
      | .error e => .error e
      | .ok _ =>
      match assertState record .OfferSent with
      | .error e => .error e
      | .ok _ =>
        if !connectionChecksPass then .error .connectionNotValid
        else
          let rebound := if record.connectionId.isNone
            then { record with connectionId := connection } else record
          let updated := { rebound with state := .ProposalReceived }
          .ok (updateRecordInStore records updated, updated)
    | none =>
      if !connectionChecksPass then .error .connectionNotValid
      else
        let created : CredentialExchangeRecord :=
          ⟨freshId, proposalMessage.threadId, proposalMessage.parentThreadId, connection,
            .Issuer, .ProposalReceived, "v2", none⟩
        .ok (records ++ [created], created)

/-- `V2DidCommCredentialProtocol.processRequest`. Looks up an existing record
by `(threadId, role = Issuer)` (no connection filter); resolves format
services from the message; when a record exists asserts protocol version and
`OfferSent` state, binds the connection id when the record was
connection-less, and moves it to `RequestReceived`; otherwise creates a new
record in `RequestReceived` with role `Issuer`. -/
def processRequest (services : List CredentialFormatService)
    (records : List CredentialExchangeRecord) (connection : Option String)
    (connectionChecksPass : Bool) (freshId : Nat)
    (requestMessage : RequestCredentialMessage) :
    Except CredentialProtocolError (List CredentialExchangeRecord × CredentialExchangeRecord) :=
  let existing := findByProperties records requestMessage.threadId .Issuer none
  let formatServices := getFormatServicesFromMessage services requestMessage.formats
  if formatServices.isEmpty then .error .noSupportedFormats
  else
    match existing with
    | some record =>
      match assertProtocolVersion record "v2" with
      | .error e => .error e
      | .ok _ =>
      match assertState record .OfferSent with
      | .error e => .error e
      | .ok _ =>
        if !connectionChecksPass then .error .connectionNotValid
        else
          let rebound := if record.connectionId.isNone
            then { record with connectionId := connection } else record
          let updated := { rebound with state := .RequestReceived }
          .ok (updateRecordInStore records updated, updated)
    | none =>
      if !connectionChecksPass then .error .connectionNotValid
      else
        let created : CredentialExchangeRecord :=
          ⟨freshId, requestMessage.threadId, requestMessage.parentThreadId, connection,
            .Issuer, .RequestReceived, "v2", none⟩
        .ok (records ++ [created], created)

/-! ## Credential protocol: auto-accept decision -/

/-- Modelled from the spec: "resolve the effective policy as
`record.autoAcceptPolicy ?? moduleDefault`"
(`util/composeAutoAccept`, whose body is not part of the studied sources). -/
def composeAutoAccept (recordPolicy : Option DidCommAutoAcceptCredential)
    (moduleDefault : DidCommAutoAcceptCredential) : DidCommAutoAcceptCredential :=
  recordPolicy.getD moduleDefault

/-- Modelled from the spec: the format coordinator splits "an inbound
message's attachments back out per format"
(`CredentialFormatCoordinator.getAttachmentForService`, whose body is not
part of the studied sources): the attachment referenced by the first format
spec the service supports, when any. -/
def getAttachmentForService (service : CredentialFormatService)
    (formats : List CredentialFormatSpec) (attachments : List Attachment) :
    Option Attachment :=
  match formats.find? (fun f => supportsFormat service f.format) with
  | none => none
  | some f => attachments.find? (fun a => decide (a.id = f.attachmentId))

/-- Modelled from the spec: preview "attribute sets must be exactly equal
(same names and values, order-independent)" (`util/previewAttributes`, whose
body is not part of the studied sources): equality of the two lists viewed
as sets of (name, value) pairs. -/
def arePreviewAttributesEqual (a b : List PreviewAttribute) : Bool :=
  a.all (fun x => b.any (fun y => decide (y = x))) &&
    b.all (fun x => a.any (fun y => decide (y = x)))

/-- The attribute list of an optional preview, absent meaning empty
(the `credentialPreview?.attributes ?? []` pattern). -/
def previewAttributesOrEmpty (preview : Option CredentialPreview) : List PreviewAttribute :=
  (preview.map (fun p => p.attributes)).getD []

/-- `V2DidCommCredentialProtocol.shouldAutoRespondToProposal`. The capability
verdicts (`formatService.shouldAutoRespondToProposal`) are external: `verdict`
maps a service identity and the offer and proposal attachments handed to it
to its answer. `offerMessage` is the previously sent offer as found in the
message repository (`findOfferMessage`). Resolves the effective policy;
`Always` accepts and `Never` refuses unconditionally; under
`ContentApproved` refuses when no offer was sent, consults the services of
the offer message, refuses when any answers false, and finally, when either
message carries a credential preview, requires both to carry one with equal
attribute sets. -/
def shouldAutoRespondToProposal (services : List CredentialFormatService)
    (moduleDefault : DidCommAutoAcceptCredential)
    (verdict : Nat → Option Attachment → Option Attachment → Bool)
    (record : CredentialExchangeRecord)
    (offerMessage : Option OfferCredentialMessage)
    (proposalMessage : ProposeCredentialMessage) : Bool :=
  match composeAutoAccept record.autoAcceptCredential moduleDefault with
  | .Always => true
  | .Never => false
  | .ContentApproved =>
    match offerMessage with
    | none => false
    | some offerMessage =>
      let formatServices := getFormatServicesFromMessage services offerMessage.formats
      if formatServices.all (fun s => verdict s.serviceId
          (getAttachmentForService s offerMessage.formats offerMessage.offerAttachments)
          (getAttachmentForService s proposalMessage.formats proposalMessage.proposalAttachments))
      then
        if proposalMessage.credentialPreview.isSome || offerMessage.credentialPreview.isSome then
          match proposalMessage.credentialPreview, offerMessage.credentialPreview with
          | some pp, some op => arePreviewAttributesEqual pp.attributes op.attributes
          | _, _ => false
        else true
      else false

/-- `V2DidCommCredentialProtocol.shouldAutoRespondToOffer`. Mirror image of
`shouldAutoRespondToProposal`: the previously sent message is the proposal
(`findProposalMessage`), whose formats determine the consulted services; the
final preview comparison, however, substitutes an empty attribute list for a
missing preview (`credentialPreview?.attributes ?? []`). -/
def shouldAutoRespondToOffer (services : List CredentialFormatService)
    (moduleDefault : DidCommAutoAcceptCredential)
    (verdict : Nat → Option Attachment → Option Attachment → Bool)
    (record : CredentialExchangeRecord)
    (proposalMessage : Option ProposeCredentialMessage)
    (offerMessage : OfferCredentialMessage) : Bool :=
  match composeAutoAccept record.autoAcceptCredential moduleDefault with
  | .Always => true
  | .Never => false
  | .ContentApproved =>
    match proposalMessage with
    | none => false
    | some proposalMessage =>
      let formatServices := getFormatServicesFromMessage services proposalMessage.formats
      if formatServices.all (fun s => verdict s.serviceId
          (getAttachmentForService s offerMessage.formats offerMessage.offerAttachments)
          (getAttachmentForService s proposalMessage.formats proposalMessage.proposalAttachments))
      then
        if proposalMessage.credentialPreview.isSome || offerMessage.credentialPreview.isSome then
          arePreviewAttributesEqual
            (previewAttributesOrEmpty proposalMessage.credentialPreview)
            (previewAttributesOrEmpty offerMessage.credentialPreview)
        else true
      else false

/-! ## Theorems: message pickup claims -/

/-- C2: evaluation of the code at the failing input. A queue holding one
message for connection `c`: `processDeliveryRequest` (which calls
`takeFromQueue` without `keepMessages`, so the repository receives a falsy
value and deletes what it selected) returns the message as a delivery
attachment but drops the available message count from 1 to 0, and a second
`takeFromQueue` for the same connection — without any intervening
messages-received acknowledgement — returns nothing instead of the same
message again. -/
theorem processDeliveryRequest_deletes_taken_messages :
    getAvailableMessageCount [⟨"m1", "c", "p"⟩] "c" = 1
    ∧ (processDeliveryRequest [⟨"m1", "c", "p"⟩] "c" "t" none 10).2 =
        .delivery "t" none ["m1"]
    ∧ getAvailableMessageCount (processDeliveryRequest [⟨"m1", "c", "p"⟩] "c" "t" none 10).1 "c" = 0
    ∧ (takeFromQueue (processDeliveryRequest [⟨"m1", "c", "p"⟩] "c" "t" none 10).1
        "c" (some 10) false).1 = [] := by
  decide

/-- C7: for a status message reporting a non-zero count, `processStatus`
returns a delivery request whose limit is the reported count when it is
below the configured maximum batch size and the maximum otherwise, and the
limit never exceeds the maximum. -/
theorem processStatus_limit_capped (maximumBatchSize : Nat) (connectionId : String)
    (statusMessage : V2StatusMessageData) (h : statusMessage.messageCount ≠ 0) :
    (processStatus maximumBatchSize connectionId statusMessage).2 =
      some ⟨(if statusMessage.messageCount < maximumBatchSize
              then statusMessage.messageCount else maximumBatchSize),
            statusMessage.recipientKey⟩
    ∧ ∀ d, (processStatus maximumBatchSize connectionId statusMessage).2 = some d →
        d.limit ≤ maximumBatchSize := by
  constructor
  · simp [processStatus, h]
  · intro d hd
    simp [processStatus, h] at hd
    simp only [← hd]
    split
    · omega
    · omega

/-- C7 witness: 15 queued messages against a maximum batch size of 10 yield
a delivery request with limit 10. -/
theorem processStatus_limit_capped_witness :
    (15 : Nat) ≠ 0
    ∧ (processStatus 10 "c" ⟨"t", none, 15⟩).2 = some ⟨10, none⟩ := by
  refine ⟨by decide, ?_⟩
  have h := (processStatus_limit_capped 10 "c" ⟨"t", none, 15⟩ (by decide)).1
  simpa using h

/-- C8: a status message reporting zero messages makes `processStatus` emit
exactly one pickup-completed event carrying the connection and the status
message's thread id, return no delivery request, and makes the status
handler produce no outbound message. -/
theorem processStatus_zero_completes (maximumBatchSize : Nat) (connectionId : String)
    (statusMessage : V2StatusMessageData) (h : statusMessage.messageCount = 0) :
    (processStatus maximumBatchSize connectionId statusMessage).1 =
      [⟨connectionId, statusMessage.threadId⟩]
    ∧ (processStatus maximumBatchSize connectionId statusMessage).2 = none
    ∧ v2StatusHandlerHandle maximumBatchSize connectionId statusMessage = none := by
  refine ⟨?_, ?_, ?_⟩ <;> simp [processStatus, v2StatusHandlerHandle, h]

/-- C8 witness: zero queued messages on connection `C`. -/
theorem processStatus_zero_completes_witness :
    (0 : Nat) = 0
    ∧ (processStatus 10 "C" ⟨"t", none, 0⟩).1 = [⟨"C", "t"⟩]
    ∧ v2StatusHandlerHandle 10 "C" ⟨"t", none, 0⟩ = none := by
  have h := processStatus_zero_completes 10 "C" ⟨"t", none, 0⟩ rfl
  exact ⟨rfl, h.1, h.2.2⟩

/-- C9: `processDelivery` fails with the attachments problem report exactly
when the appended-attachments field is absent; a present but empty
attachments list is processed normally, answering with an empty
messages-received id list. -/
theorem processDelivery_missing_vs_empty_attachments :
    (∀ appendedAttachments : Option (List Attachment),
      processDelivery appendedAttachments = .error .errorProcessingAttachments
        ↔ appendedAttachments = none)
    ∧ processDelivery (some []) = .ok [] := by
  constructor
  · intro appendedAttachments
    cases appendedAttachments <;> simp [processDelivery]
  · rfl

/-- C10: with an empty `messageIdList` the messages-received handler never
calls queue removal, leaves the queue untouched and still reports the
current available message count; with a non-empty list it calls
`removeMessages` with exactly that list. -/
theorem processMessagesReceived_removal (queue : List QueuedMessage)
    (connectionId threadId : String) (messageIdList : List String) :
    (messageIdList = [] →
      (processMessagesReceived queue connectionId threadId messageIdList).removeCall = none
      ∧ (processMessagesReceived queue connectionId threadId messageIdList).queue = queue
      ∧ (processMessagesReceived queue connectionId threadId messageIdList).status.messageCount
          = getAvailableMessageCount queue connectionId)
    ∧ (messageIdList ≠ [] →
      (processMessagesReceived queue connectionId threadId messageIdList).removeCall
          = some messageIdList
      ∧ (processMessagesReceived queue connectionId threadId messageIdList).queue
          = removeMessages queue messageIdList) := by
  constructor
  · intro h
    subst h
    simp [processMessagesReceived]
  · intro h
    have hlen : messageIdList.length ≠ 0 := by
      simpa [List.length_eq_zero] using h
    simp [processMessagesReceived, hlen]

/-- C10 witness: evaluation at an empty and at a non-empty id list. -/
theorem processMessagesReceived_removal_witness :
    (processMessagesReceived [⟨"m", "c", "p"⟩] "c" "t" []).removeCall = none
    ∧ (processMessagesReceived [⟨"m", "c", "p"⟩] "c" "t" ["m"]).removeCall = some ["m"] := by
  constructor
  · exact ((processMessagesReceived_removal [⟨"m", "c", "p"⟩] "c" "t" []).1 rfl).1
  · exact ((processMessagesReceived_removal [⟨"m", "c", "p"⟩] "c" "t" ["m"]).2 (by decide)).1

/-! ## Theorems: credential protocol claims -/

/-- C1 counterexample: two registered services, `f1` for wire format `F1`
and `f2` for `F2`. The record's stored inbound request attached both `F1`
and `F2` while the offer this agent sent used only `F1`. `acceptRequest`
with no explicit formats uses the services of the request message — both
`f1` and `f2` — whereas the services of the offer are `f1` alone, so the
format set is not pinned to the last sent message and `F2` is not ignored. -/
theorem acceptRequest_fallback_uses_request_formats :
    (match acceptRequest [⟨0, "f1", ["F1"]⟩, ⟨1, "f2", ["F2"]⟩] none none
        ⟨1, "th", none, some "conn", .Issuer, .RequestReceived, "v2", none⟩
        (some ⟨"th", none, [⟨"b1", "F1"⟩, ⟨"b2", "F2"⟩], [⟨"b1", "d1"⟩, ⟨"b2", "d2"⟩]⟩) with
      | .ok r => some (r.usedFormatServices.map (fun s => s.formatKey))
      | .error _ => none) = some ["f1", "f2"]
    ∧ (getFormatServicesFromMessage [⟨0, "f1", ["F1"]⟩, ⟨1, "f2", ["F2"]⟩]
        [⟨"a1", "F1"⟩]).map (fun s => s.formatKey) = ["f1"]
    ∧ (["f1", "f2"] : List String) ≠ ["f1"] := by
  refine ⟨rfl, rfl, by decide⟩

/-- C1 amended: when the caller supplies no credential formats (so none
resolve), each accept operation falls back to exactly the format services of
the stored inbound counterpart message — the request for `acceptRequest`,
the offer for `acceptOffer`, the proposal for `acceptProposal` (all stored
with role Receiver, i.e. the most recently received counterpart, not the
last message this agent sent) — and advances the record one step. -/
theorem accept_fallback_formats_from_received_message
    (services : List CredentialFormatService) (record : CredentialExchangeRecord)
    (requestMessage : RequestCredentialMessage) (offerMessage : OfferCredentialMessage)
    (proposalMessage : ProposeCredentialMessage)
    (hv : record.protocolVersion = "v2") :
    (∀ r, record.state = .RequestReceived →
      acceptRequest services none none record (some requestMessage) = .ok r →
        r.usedFormatServices = getFormatServicesFromMessage services requestMessage.formats
        ∧ r.record.state = .CredentialIssued)
    ∧ (∀ r, record.state = .OfferReceived →
      acceptOffer services none none record (some offerMessage) = .ok r →
        r.usedFormatServices = getFormatServicesFromMessage services offerMessage.formats
        ∧ r.record.state = .RequestSent)
    ∧ (∀ r, record.state = .ProposalReceived →
      acceptProposal services none none record (some proposalMessage) = .ok r →
        r.usedFormatServices = getFormatServicesFromMessage services proposalMessage.formats
        ∧ r.record.state = .OfferSent) := by
  refine ⟨?_, ?_, ?_⟩
  · intro r hs hok
    unfold acceptRequest at hok
    simp only [assertProtocolVersion, assertState, hv, hs, if_true, Option.getD_none,
      getFormatServices, List.foldl_nil, List.isEmpty_nil] at hok
    by_cases hfs : (getFormatServicesFromMessage services requestMessage.formats).isEmpty
    · simp [hfs] at hok
    · simp only [hfs, Bool.false_eq_true, if_false] at hok
      cases hok
      exact ⟨rfl, rfl⟩
  · intro r hs hok
    unfold acceptOffer at hok
    simp only [assertProtocolVersion, assertState, hv, hs, if_true, Option.getD_none,
      getFormatServices, List.foldl_nil, List.isEmpty_nil] at hok
    by_cases hfs : (getFormatServicesFromMessage services offerMessage.formats).isEmpty
    · simp [hfs] at hok
    · simp only [hfs, Bool.false_eq_true, if_false] at hok
      cases hok
      exact ⟨rfl, rfl⟩
  · intro r hs hok
    unfold acceptProposal at hok
    simp only [assertProtocolVersion, assertState, hv, hs, if_true, Option.getD_none,
      getFormatServices, List.foldl_nil, List.isEmpty_nil] at hok
    by_cases hfs : (getFormatServicesFromMessage services proposalMessage.formats).isEmpty
    · simp [hfs] at hok
    · simp only [hfs, Bool.false_eq_true, if_false] at hok
      cases hok
      exact ⟨rfl, rfl⟩

/-- C1 witness: a concrete `acceptRequest` fallback instance. -/
theorem accept_fallback_formats_witness :
    (⟨1, "th", none, some "conn", .Issuer, .RequestReceived, "v2", none⟩
        : CredentialExchangeRecord).protocolVersion = "v2"
    ∧ ((acceptRequest [⟨0, "f1", ["F1"]⟩] none none
          ⟨1, "th", none, some "conn", .Issuer, .RequestReceived, "v2", none⟩
          (some ⟨"th", none, [⟨"a", "F1"⟩], [⟨"a", "d"⟩]⟩) = .ok
            ⟨⟨1, "th", none, some "conn", .Issuer, .CredentialIssued, "v2", none⟩,
              [⟨0, "f1", ["F1"]⟩]⟩)
        → [⟨0, "f1", ["F1"]⟩] = getFormatServicesFromMessage [⟨0, "f1", ["F1"]⟩]
              [⟨"a", "F1"⟩]) := by
  refine ⟨rfl, ?_⟩
  intro hok
  exact ((accept_fallback_formats_from_received_message [⟨0, "f1", ["F1"]⟩]
      ⟨1, "th", none, some "conn", .Issuer, .RequestReceived, "v2", none⟩
      ⟨"th", none, [⟨"a", "F1"⟩], [⟨"a", "d"⟩]⟩
      ⟨"th", none, [], [], none⟩ ⟨"th", none, [], [], none⟩ rfl).1 _ rfl hok).1

/-- C4 counterexample: a connection-less record that is not in the state the
negotiation expects (here `Done`) makes `negotiateProposal` fail with the
invalid-state error, not with the negotiation-not-supported error — the
state assertion runs before the connection check, so not every
connection-less record fails with `NegotiationNotSupported`. -/
theorem negotiateProposal_wrong_state_error :
    negotiateProposal [⟨0, "f1", ["F1"]⟩] ["f1"] none
        ⟨1, "th", none, none, .Issuer, .Done, "v2", none⟩ = .error .invalidState
    ∧ negotiateOffer [⟨0, "f1", ["F1"]⟩] ["f1"] none
        ⟨1, "th", none, none, .Holder, .Done, "v2", none⟩ = .error .invalidState
    ∧ CredentialProtocolError.invalidState ≠ CredentialProtocolError.negotiationNotSupported := by
  refine ⟨rfl, rfl, by decide⟩

/-- C4 amended: for a record in the state the negotiation expects
(`ProposalReceived` for `negotiateProposal`, `OfferReceived` for
`negotiateOffer`), a missing `connectionId` makes the call fail with the
negotiation-not-supported error — and an error result carries no updated
record, so the persisted state is untouched — while a present `connectionId`
together with at least one resolvable format service makes the call succeed
and move the record to the `*Sent` state of the new round. -/
theorem negotiate_requires_connection (services : List CredentialFormatService)
    (credentialFormats : List String) (auto : Option DidCommAutoAcceptCredential)
    (record : CredentialExchangeRecord) (hv : record.protocolVersion = "v2") :
    (record.state = .ProposalReceived → record.connectionId = none →
      negotiateProposal services credentialFormats auto record = .error .negotiationNotSupported)
    ∧ (record.state = .OfferReceived → record.connectionId = none →
      negotiateOffer services credentialFormats auto record = .error .negotiationNotSupported)
    ∧ (∀ c, record.state = .ProposalReceived → record.connectionId = some c →
      getFormatServices services credentialFormats ≠ [] →
      negotiateProposal services credentialFormats auto record = .ok
        ⟨{ record with
            autoAcceptCredential := auto <|> record.autoAcceptCredential,
            state := .OfferSent }, getFormatServices services credentialFormats⟩)
    ∧ (∀ c, record.state = .OfferReceived → record.connectionId = some c →
      getFormatServices services credentialFormats ≠ [] →
      negotiateOffer services credentialFormats auto record = .ok
        ⟨{ record with
            autoAcceptCredential := auto <|> record.autoAcceptCredential,
            state := .ProposalSent }, getFormatServices services credentialFormats⟩) := by
  refine ⟨?_, ?_, ?_, ?_⟩
  · intro hs hc
    simp [negotiateProposal, assertProtocolVersion, assertState, hv, hs, hc]
  · intro hs hc
    simp [negotiateOffer, assertProtocolVersion, assertState, hv, hs, hc]
  · intro c hs hc hne
    cases hl : getFormatServices services credentialFormats with
    | nil => exact absurd hl hne
    | cons a t =>
      simp [negotiateProposal, assertProtocolVersion, assertState, hv, hs, hc, hl]
  · intro c hs hc hne
    cases hl : getFormatServices services credentialFormats with
    | nil => exact absurd hl hne
    | cons a t =>
      simp [negotiateOffer, assertProtocolVersion, assertState, hv, hs, hc, hl]

/-- C4 witness: a connection-less record in `ProposalReceived` is refused
with the negotiation-not-supported error, and the same record bound to a
connection is negotiated to `OfferSent`. -/
theorem negotiate_requires_connection_witness :
    negotiateProposal [⟨0, "f1", ["F1"]⟩] ["f1"] none
        ⟨1, "th", none, none, .Issuer, .ProposalReceived, "v2", none⟩
      = .error .negotiationNotSupported
    ∧ negotiateProposal [⟨0, "f1", ["F1"]⟩] ["f1"] none
        ⟨1, "th", none, some "conn", .Issuer, .ProposalReceived, "v2", none⟩
      = .ok ⟨⟨1, "th", none, some "conn", .Issuer, .OfferSent, "v2", none⟩,
          [⟨0, "f1", ["F1"]⟩]⟩ := by
  constructor
  · exact (negotiate_requires_connection [⟨0, "f1", ["F1"]⟩] ["f1"] none
      ⟨1, "th", none, none, .Issuer, .ProposalReceived, "v2", none⟩ rfl).1 rfl rfl
  · have h := (negotiate_requires_connection [⟨0, "f1", ["F1"]⟩] ["f1"] none
      ⟨1, "th", none, some "conn", .Issuer, .ProposalReceived, "v2", none⟩ rfl).2.2.1
      "conn" rfl rfl (by decide)
    simpa using h

/-- C3: for each inbound `process*` call whose lookup by thread id, role
(and connection for `processOffer`) finds an existing record, no second
record is created — every successful result leaves the store's size
unchanged and returns the found record's id — the record's protocol version
is asserted (a mismatch fails with the version error) and its state is
asserted to be the expected predecessor (`ProposalSent` for an offer,
`OfferSent` for a proposal or request; a mismatch fails with the
invalid-state error); a new record is appended only when the lookup finds
none. -/
theorem process_inbound_no_duplicate_record
    (services : List CredentialFormatService) (records : List CredentialExchangeRecord)
    (connection : Option String) (connOk : Bool) (freshId : Nat)
    (om : OfferCredentialMessage) (pm : ProposeCredentialMessage)
    (rm : RequestCredentialMessage) :
    ((∀ rec, findByProperties records om.threadId .Holder (some connection) = some rec →
        (∀ rs r, processOffer services records connection connOk freshId om = .ok (rs, r) →
          rs.length = records.length ∧ r.id = rec.id)
        ∧ (getFormatServicesFromMessage services om.formats ≠ [] →
            rec.protocolVersion ≠ "v2" →
            processOffer services records connection connOk freshId om
              = .error .invalidProtocolVersion)
        ∧ (getFormatServicesFromMessage services om.formats ≠ [] →
            rec.protocolVersion = "v2" → rec.state ≠ .ProposalSent →
            processOffer services records connection connOk freshId om
              = .error .invalidState))
      ∧ (findByProperties records om.threadId .Holder (some connection) = none →
          ∀ rs r, processOffer services records connection connOk freshId om = .ok (rs, r) →
            rs = records ++ [r]))
    ∧ ((∀ rec, findByProperties records pm.threadId .Issuer none = some rec →
        (∀ rs r, processProposal services records connection connOk freshId pm = .ok (rs, r) →
          rs.length = records.length ∧ r.id = rec.id)
        ∧ (getFormatServicesFromMessage services pm.formats ≠ [] →
            rec.protocolVersion ≠ "v2" →
            processProposal services records connection connOk freshId pm
              = .error .invalidProtocolVersion)
        ∧ (getFormatServicesFromMessage services pm.formats ≠ [] →
            rec.protocolVersion = "v2" → rec.state ≠ .OfferSent →
            processProposal services records connection connOk freshId pm
              = .error .invalidState))
      ∧ (findByProperties records pm.threadId .Issuer none = none →
          ∀ rs r, processProposal services records connection connOk freshId pm = .ok (rs, r) →
            rs = records ++ [r]))
    ∧ ((∀ rec, findByProperties records rm.threadId .Issuer none = some rec →
        (∀ rs r, processRequest services records connection connOk freshId rm = .ok (rs, r) →
          rs.length = records.length ∧ r.id = rec.id)
        ∧ (getFormatServicesFromMessage services rm.formats ≠ [] →
            rec.protocolVersion ≠ "v2" →
            processRequest services records connection connOk freshId rm
              = .error .invalidProtocolVersion)
        ∧ (getFormatServicesFromMessage services rm.formats ≠ [] →
            rec.protocolVersion = "v2" → rec.state ≠ .OfferSent →
            processRequest services records connection connOk freshId rm
              = .error .invalidState))
      ∧ (findByProperties records rm.threadId .Issuer none = none →
          ∀ rs r, processRequest services records connection connOk freshId rm = .ok (rs, r) →
            rs = records ++ [r])) := by
  refine ⟨⟨?_, ?_⟩, ⟨?_, ?_⟩, ⟨?_, ?_⟩⟩
  · intro rec hfind
    refine ⟨?_, ?_, ?_⟩
    · intro rs r hok
      simp only [processOffer, hfind] at hok
      by_cases hfs : (getFormatServicesFromMessage services om.formats).isEmpty
      · simp [hfs] at hok
      · simp only [hfs, Bool.false_eq_true, if_false, assertProtocolVersion, assertState] at hok
        by_cases hv : rec.protocolVersion = "v2"
        · simp only [hv, if_true] at hok
          by_cases hst : rec.state = .ProposalSent
          · simp only [hst, if_true] at hok
            cases connOk with
            | false => simp at hok
            | true =>
              simp only [Bool.not_true, Bool.false_eq_true, if_false] at hok
              cases hok
              exact ⟨by simp [updateRecordInStore], rfl⟩
          · simp [hst] at hok
        · simp [hv] at hok
    · intro hne hv
      cases hl : getFormatServicesFromMessage services om.formats with
      | nil => exact absurd hl hne
      | cons a t =>
        simp [processOffer, hfind, hl, assertProtocolVersion, hv]
    · intro hne hv hst
      cases hl : getFormatServicesFromMessage services om.formats with
      | nil => exact absurd hl hne
      | cons a t =>
        simp [processOffer, hfind, hl, assertProtocolVersion, assertState, hv, hst]
  · intro hfind rs r hok
    simp only [processOffer, hfind] at hok
    by_cases hfs : (getFormatServicesFromMessage services om.formats).isEmpty
    · simp [hfs] at hok
    · simp only [hfs, Bool.false_eq_true, if_false] at hok
      cases connOk with
      | false => simp at hok
      | true =>
        simp only [Bool.not_true, Bool.false_eq_true, if_false] at hok
        cases hok
        rfl
  · intro rec hfind
    refine ⟨?_, ?_, ?_⟩
    · intro rs r hok
      simp only [processProposal, hfind] at hok
      by_cases hfs : (getFormatServicesFromMessage services pm.formats).isEmpty
      · simp [hfs] at hok
      · simp only [hfs, Bool.false_eq_true, if_false, assertProtocolVersion, assertState] at hok
        by_cases hv : rec.protocolVersion = "v2"
        · simp only [hv, if_true] at hok
          by_cases hst : rec.state = .OfferSent
          · simp only [hst, if_true] at hok
            cases connOk with
            | false => simp at hok
            | true =>
              simp only [Bool.not_true, Bool.false_eq_true, if_false] at hok
              cases hok
              constructor
              · simp [updateRecordInStore]
              · by_cases hcid : rec.connectionId.isNone <;> simp [hcid]
          · simp [hst] at hok
        · simp [hv] at hok
    · intro hne hv
      cases hl : getFormatServicesFromMessage services pm.formats with
      | nil => exact absurd hl hne
      | cons a t =>
        simp [processProposal, hfind, hl, assertProtocolVersion, hv]
    · intro hne hv hst
      cases hl : getFormatServicesFromMessage services pm.formats with
      | nil => exact absurd hl hne
      | cons a t =>
        simp [processProposal, hfind, hl, assertProtocolVersion, assertState, hv, hst]
  · intro hfind rs r hok
    simp only [processProposal, hfind] at hok
    by_cases hfs : (getFormatServicesFromMessage services pm.formats).isEmpty
    · simp [hfs] at hok
    · simp only [hfs, Bool.false_eq_true, if_false] at hok
      cases connOk with
      | false => simp at hok
      | true =>
        simp only [Bool.not_true, Bool.false_eq_true, if_false] at hok
        cases hok
        rfl
  · intro rec hfind
    refine ⟨?_, ?_, ?_⟩
    · intro rs r hok
      simp only [processRequest, hfind] at hok
      by_cases hfs : (getFormatServicesFromMessage services rm.formats).isEmpty
      · simp [hfs] at hok
      · simp only [hfs, Bool.false_eq_true, if_false, assertProtocolVersion, assertState] at hok
        by_cases hv : rec.protocolVersion = "v2"
        · simp only [hv, if_true] at hok
          by_cases hst : rec.state = .OfferSent
          · simp only [hst, if_true] at hok
            cases connOk with
            | false => simp at hok
            | true =>
              simp only [Bool.not_true, Bool.false_eq_true, if_false] at hok
              cases hok
              constructor
              · simp [updateRecordInStore]
              · by_cases hcid : rec.connectionId.isNone <;> simp [hcid]
          · simp [hst] at hok
        · simp [hv] at hok
    · intro hne hv
      cases hl : getFormatServicesFromMessage services rm.formats with
      | nil => exact absurd hl hne
      | cons a t =>
        simp [processRequest, hfind, hl, assertProtocolVersion, hv]
    · intro hne hv hst
      cases hl : getFormatServicesFromMessage services rm.formats with
      | nil => exact absurd hl hne
      | cons a t =>
        simp [processRequest, hfind, hl, assertProtocolVersion, assertState, hv, hst]
  · intro hfind rs r hok
    simp only [processRequest, hfind] at hok
    by_cases hfs : (getFormatServicesFromMessage services rm.formats).isEmpty
    · simp [hfs] at hok
    · simp only [hfs, Bool.false_eq_true, if_false] at hok
      cases connOk with
      | false => simp at hok
      | true =>
        simp only [Bool.not_true, Bool.false_eq_true, if_false] at hok
        cases hok
        rfl

/-- C3 witness: replaying an offer for a thread whose record already exists
in `ProposalSent` updates that record in place — the store keeps its single
entry and the returned record keeps the id of the existing one. -/
theorem process_inbound_no_duplicate_record_witness :
    findByProperties [⟨1, "th", none, some "conn", .Holder, .ProposalSent, "v2", none⟩]
        "th" DidCommCredentialRole.Holder (some (some "conn"))
      = some ⟨1, "th", none, some "conn", .Holder, .ProposalSent, "v2", none⟩
    ∧ ([(⟨1, "th", none, some "conn", .Holder, .OfferReceived, "v2", none⟩
          : CredentialExchangeRecord)].length
        = [(⟨1, "th", none, some "conn", .Holder, .ProposalSent, "v2", none⟩
          : CredentialExchangeRecord)].length
      ∧ (⟨1, "th", none, some "conn", .Holder, .OfferReceived, "v2", none⟩
          : CredentialExchangeRecord).id
        = (⟨1, "th", none, some "conn", .Holder, .ProposalSent, "v2", none⟩
          : CredentialExchangeRecord).id) := by
  refine ⟨rfl, ?_⟩
  exact ((process_inbound_no_duplicate_record [⟨0, "f1", ["F1"]⟩]
      [⟨1, "th", none, some "conn", .Holder, .ProposalSent, "v2", none⟩]
      (some "conn") true 2
      ⟨"th", none, [⟨"a", "F1"⟩], [⟨"a", "d"⟩], none⟩
      ⟨"x", none, [], [], none⟩ ⟨"x", none, [], []⟩).1.1
      ⟨1, "th", none, some "conn", .Holder, .ProposalSent, "v2", none⟩ rfl).1
      [⟨1, "th", none, some "conn", .Holder, .OfferReceived, "v2", none⟩]
      ⟨1, "th", none, some "conn", .Holder, .OfferReceived, "v2", none⟩ rfl

/-- Helper: a list-wide `all` is false as soon as one member answers false. -/
theorem list_all_false_of_mem {α : Type} {l : List α} {p : α → Bool}
    (h : ∃ x ∈ l, p x = false) : l.all p = false := by
  rcases h with ⟨x, hx, hpx⟩
  cases hall : l.all p with
  | false => rfl
  | true =>
    have := List.all_eq_true.mp hall x hx
    rw [hpx] at this
    cases this

/-- Helper: `all` only depends on the predicate's values on the members. -/
theorem list_all_congr_mem {α : Type} {p q : α → Bool} :
    ∀ l : List α, (∀ x ∈ l, p x = q x) → l.all p = l.all q
  | [], _ => rfl
  | a :: t, h => by
    simp only [List.all_cons]
    rw [h a (by simp), list_all_congr_mem t (fun x hx => h x (by simp [hx]))]

/-- C5: `shouldAutoRespondToOffer` resolves the effective policy as the
record's override else the module default; `Always` accepts and `Never`
refuses unconditionally; under `ContentApproved` a missing previously-sent
proposal message yields false, a false answer from any format service of
the proposal message yields false, and the decision only depends on the
verdicts of the services of the proposal message (the previously sent one),
never consulting a service only present in the inbound offer. All these
failure cases return false rather than raising. -/
theorem shouldAutoRespondToOffer_policy (services : List CredentialFormatService)
    (moduleDefault : DidCommAutoAcceptCredential)
    (verdict verdictB : Nat → Option Attachment → Option Attachment → Bool)
    (record : CredentialExchangeRecord)
    (pm : Option ProposeCredentialMessage) (om : OfferCredentialMessage) :
    (record.autoAcceptCredential = some .Always →
      shouldAutoRespondToOffer services moduleDefault verdict record pm om = true)
    ∧ (record.autoAcceptCredential = none → moduleDefault = .Always →
      shouldAutoRespondToOffer services moduleDefault verdict record pm om = true)
    ∧ (composeAutoAccept record.autoAcceptCredential moduleDefault = .Never →
      shouldAutoRespondToOffer services moduleDefault verdict record pm om = false)
    ∧ (composeAutoAccept record.autoAcceptCredential moduleDefault = .ContentApproved →
      (shouldAutoRespondToOffer services moduleDefault verdict record none om = false)
      ∧ ∀ p, pm = some p →
        ((∃ s ∈ getFormatServicesFromMessage services p.formats,
            verdict s.serviceId
              (getAttachmentForService s om.formats om.offerAttachments)
              (getAttachmentForService s p.formats p.proposalAttachments) = false) →
          shouldAutoRespondToOffer services moduleDefault verdict record pm om = false)
        ∧ ((∀ s ∈ getFormatServicesFromMessage services p.formats, ∀ oa pa,
              verdict s.serviceId oa pa = verdictB s.serviceId oa pa) →
          shouldAutoRespondToOffer services moduleDefault verdict record pm om =
            shouldAutoRespondToOffer services moduleDefault verdictB record pm om)) := by
  refine ⟨?_, ?_, ?_, ?_⟩
  · intro h
    simp [shouldAutoRespondToOffer, composeAutoAccept, h]
  · intro h hm
    simp [shouldAutoRespondToOffer, composeAutoAccept, h, hm]
  · intro h
    simp [shouldAutoRespondToOffer, h]
  · intro h
    constructor
    · simp [shouldAutoRespondToOffer, h]
    · intro p hp
      subst hp
      constructor
      · intro hbad
        have hall := list_all_false_of_mem hbad
        simp [shouldAutoRespondToOffer, h, hall]
      · intro hagree
        have hall := list_all_congr_mem
          (p := fun s => verdict s.serviceId
            (getAttachmentForService s om.formats om.offerAttachments)
            (getAttachmentForService s p.formats p.proposalAttachments))
          (q := fun s => verdictB s.serviceId
            (getAttachmentForService s om.formats om.offerAttachments)
            (getAttachmentForService s p.formats p.proposalAttachments))
          (getFormatServicesFromMessage services p.formats)
          (fun s hs => hagree s hs _ _)
        simp [shouldAutoRespondToOffer, h, hall]

/-- C5 witness: a record overriding the policy to `Always` auto-accepts even
with no stored proposal message, and under `ContentApproved` a missing
proposal message refuses. -/
theorem shouldAutoRespondToOffer_policy_witness :
    (⟨1, "th", none, none, .Holder, .OfferReceived, "v2", some .Always⟩
        : CredentialExchangeRecord).autoAcceptCredential = some .Always
    ∧ shouldAutoRespondToOffer [] .Never (fun _ _ _ => true)
        ⟨1, "th", none, none, .Holder, .OfferReceived, "v2", some .Always⟩
        none ⟨"th", none, [], [], none⟩ = true
    ∧ shouldAutoRespondToOffer [] .ContentApproved (fun _ _ _ => true)
        ⟨1, "th", none, none, .Holder, .OfferReceived, "v2", none⟩
        none ⟨"th", none, [], [], none⟩ = false := by
  refine ⟨rfl, ?_, ?_⟩
  · exact (shouldAutoRespondToOffer_policy [] .Never (fun _ _ _ => true) (fun _ _ _ => true)
      ⟨1, "th", none, none, .Holder, .OfferReceived, "v2", some .Always⟩
      none ⟨"th", none, [], [], none⟩).1 rfl
  · exact ((shouldAutoRespondToOffer_policy [] .ContentApproved (fun _ _ _ => true)
      (fun _ _ _ => true)
      ⟨1, "th", none, none, .Holder, .OfferReceived, "v2", none⟩
      none ⟨"th", none, [], [], none⟩).2.2.2 rfl).1

/-- C6 counterexample: under `ContentApproved`, an offer carrying a preview
with an empty attribute list while the stored proposal carries no preview at
all makes `shouldAutoRespondToOffer` return true — the missing preview is
substituted by an empty attribute list instead of refusing, so presence on
one side with absence on the other does not always yield false. -/
theorem shouldAutoRespondToOffer_preview_absence_accepted :
    shouldAutoRespondToOffer [⟨0, "f1", ["F1"]⟩] .ContentApproved (fun _ _ _ => true)
        ⟨1, "th", none, none, .Holder, .OfferReceived, "v2", none⟩
        (some ⟨"th", none, [⟨"p1", "F1"⟩], [⟨"p1", "dp"⟩], none⟩)
        ⟨"th", none, [⟨"o1", "F1"⟩], [⟨"o1", "do"⟩], some ⟨[]⟩⟩ = true
    ∧ (⟨"th", none, [⟨"p1", "F1"⟩], [⟨"p1", "dp"⟩], none⟩
        : ProposeCredentialMessage).credentialPreview = none
    ∧ (⟨"th", none, [⟨"o1", "F1"⟩], [⟨"o1", "do"⟩], some ⟨[]⟩⟩
        : OfferCredentialMessage).credentialPreview.isSome = true := by
  refine ⟨rfl, rfl, rfl⟩

/-- C6 amended: under `ContentApproved`, once every consulted format service
agrees, `shouldAutoRespondToProposal` behaves as the claim states — true
requires both previews present (when either is) with equal attribute sets —
while `shouldAutoRespondToOffer` substitutes an empty attribute list for a
missing preview, so when either message carries a preview it is true exactly
when the attribute sets (absent counted as empty) are equal; in particular
unequal attribute values still yield false on both, and a non-empty preview
on one side with absence on the other still yields false. -/
theorem shouldAutoRespond_preview_comparison (services : List CredentialFormatService)
    (moduleDefault : DidCommAutoAcceptCredential)
    (verdict : Nat → Option Attachment → Option Attachment → Bool)
    (record : CredentialExchangeRecord)
    (pm : ProposeCredentialMessage) (om : OfferCredentialMessage)
    (hpolicy : composeAutoAccept record.autoAcceptCredential moduleDefault = .ContentApproved)
    (hprop : (getFormatServicesFromMessage services om.formats).all (fun s =>
        verdict s.serviceId
          (getAttachmentForService s om.formats om.offerAttachments)
          (getAttachmentForService s pm.formats pm.proposalAttachments)) = true)
    (hoff : (getFormatServicesFromMessage services pm.formats).all (fun s =>
        verdict s.serviceId
          (getAttachmentForService s om.formats om.offerAttachments)
          (getAttachmentForService s pm.formats pm.proposalAttachments)) = true) :
    shouldAutoRespondToProposal services moduleDefault verdict record (some om) pm =
      (match pm.credentialPreview, om.credentialPreview with
        | none, none => true
        | some pp, some op => arePreviewAttributesEqual pp.attributes op.attributes
        | _, _ => false)
    ∧ shouldAutoRespondToOffer services moduleDefault verdict record (some pm) om =
      (if pm.credentialPreview.isSome || om.credentialPreview.isSome then
          arePreviewAttributesEqual (previewAttributesOrEmpty pm.credentialPreview)
            (previewAttributesOrEmpty om.credentialPreview)
        else true) := by
  constructor
  · simp only [shouldAutoRespondToProposal, hpolicy, hprop, if_true]
    cases hp : pm.credentialPreview <;> cases ho : om.credentialPreview <;> simp [hp, ho]
  · simp only [shouldAutoRespondToOffer, hpolicy, hoff, if_true]

/-- C6 witness: proposal preview `{name: John}` against offer preview
`{name: Jane}` refuses on both decision functions. -/
theorem shouldAutoRespond_preview_comparison_witness :
    composeAutoAccept none DidCommAutoAcceptCredential.ContentApproved = .ContentApproved
    ∧ shouldAutoRespondToOffer [⟨0, "f1", ["F1"]⟩] .ContentApproved (fun _ _ _ => true)
        ⟨1, "th", none, none, .Holder, .OfferReceived, "v2", none⟩
        (some ⟨"th", none, [⟨"p1", "F1"⟩], [⟨"p1", "dp"⟩], some ⟨[⟨"name", "John"⟩]⟩⟩)
        ⟨"th", none, [⟨"o1", "F1"⟩], [⟨"o1", "do"⟩], some ⟨[⟨"name", "Jane"⟩]⟩⟩ = false
    ∧ shouldAutoRespondToProposal [⟨0, "f1", ["F1"]⟩] .ContentApproved (fun _ _ _ => true)
        ⟨1, "th", none, none, .Issuer, .ProposalReceived, "v2", none⟩
        (some ⟨"th", none, [⟨"o1", "F1"⟩], [⟨"o1", "do"⟩], some ⟨[⟨"name", "Jane"⟩]⟩⟩)
        ⟨"th", none, [⟨"p1", "F1"⟩], [⟨"p1", "dp"⟩], some ⟨[⟨"name", "John"⟩]⟩⟩ = false := by
  refine ⟨rfl, ?_, ?_⟩
  · exact (shouldAutoRespond_preview_comparison [⟨0, "f1", ["F1"]⟩] .ContentApproved
      (fun _ _ _ => true) ⟨1, "th", none, none, .Holder, .OfferReceived, "v2", none⟩
      ⟨"th", none, [⟨"p1", "F1"⟩], [⟨"p1", "dp"⟩], some ⟨[⟨"name", "John"⟩]⟩⟩
      ⟨"th", none, [⟨"o1", "F1"⟩], [⟨"o1", "do"⟩], some ⟨[⟨"name", "Jane"⟩]⟩⟩
      rfl rfl rfl).2.trans (by decide)
  · exact (shouldAutoRespond_preview_comparison [⟨0, "f1", ["F1"]⟩] .ContentApproved
      (fun _ _ _ => true) ⟨1, "th", none, none, .Issuer, .ProposalReceived, "v2", none⟩
      ⟨"th", none, [⟨"p1", "F1"⟩], [⟨"p1", "dp"⟩], some ⟨[⟨"name", "John"⟩]⟩⟩
      ⟨"th", none, [⟨"o1", "F1"⟩], [⟨"o1", "do"⟩], some ⟨[⟨"name", "Jane"⟩]⟩⟩
      rfl rfl rfl).1.trans (by decide)

end Credo
